import Mathlib

set_option maxRecDepth 100000

/-!
Shallow embedding of the m-top category processors, translated from
src/utils/merchantpayments.py, src/utils/paybill.py,
src/utils/customertransfer.py, src/utils/receivemoney.py,
src/utils/cashwithdrawal.py and src/utils/airtime.py.

Modelling conventions (one ledger row = one DataFrame row):
* Text fields are lists of characters; monetary amounts are exact
  rationals (the Python code computes on float64; the embedding works
  with exact arithmetic).
* Series.str.contains with a literal pattern is a substring test; the
  pattern consisting of an escaped asterisk followed by a plus matches
  exactly the strings containing at least one asterisk character.
* DataFrame.groupby sorts the group keys ascending (the sort=True
  default); rows of one group keep their original relative order.
* sort_values is modelled as a stable sort.  numpy's default sort is
  deterministic and is a stable insertion sort on the small aggregate
  tables handled here (fewer than 16 rows); every concrete evaluation
  below stays in that regime.
* DataFrame.nlargest n with the default keep equals a stable descending
  sort followed by take n.
* astype(int) on a float truncates toward zero.
* Python round(x, d) rounds half to even (banker's rounding).
* str.title() upper-cases every letter that follows a non-letter and
  lower-cases every other letter (ASCII model of the Python rule).
* str.partition of a single space keeps everything after the first
  space character (empty when there is no space).
* pandas str.extract with the paybill pattern (lazy prefix group, then
  optionally whitespace, the literal Acc dot, whitespace and a greedy
  account group, else end of string) is modelled by matchSep/splitAcct
  below; an unmatched account group is a missing value (pandas NaN),
  and Python str of that missing value is the three letters nan when
  the accounts column is comma-joined by the agg_concat helper.
  Fields are assumed newline-free.
-/

/-- One row of the normalized ledger (columns used by the processors). -/
structure Row where
  type_class : List Char
  type_desc  : List Char
  entity     : List Char
  withdrawn  : ℚ
  paid_in    : ℚ
deriving DecidableEq, Repr

/-- Substring containment, the model of Series.str.contains with a
literal pattern. -/
def substrB (needle : List Char) : List Char → Bool
  | [] => needle.isEmpty
  | c :: t => needle.isPrefixOf (c :: t) || substrB needle t

/-- Helper for pyTitle: the boolean records whether the previous
character was a letter. -/
def pyTitleGo : Bool → List Char → List Char
  | _, [] => []
  | prev, c :: cs =>
    (if c.isAlpha then (if prev then c.toLower else c.toUpper) else c) ::
      pyTitleGo c.isAlpha cs

/-- ASCII model of Python str.title(). -/
def pyTitle (s : List Char) : List Char := pyTitleGo false s

/-- Does the string contain an asterisk (the mask test of
customertransfer.py line 61 and receivemoney.py line 36). -/
def hasAst (s : List Char) : Bool := s.contains '*'

/-- Everything after the first space character: the model of
str.partition at a space, component 2. -/
def partAfterSpace : List Char → List Char
  | [] => []
  | c :: cs => if c = ' ' then cs else partAfterSpace cs

/-- Per-row effect of the masked-name cleanup applied by
customertransfer.py lines 61-69 and receivemoney.py lines 36-47: rows
whose entity contains an asterisk get partition-then-title, all other
rows are left unchanged (the title-casing of non-masked rows sits in an
except-branch that vectorised pandas string operations never trigger). -/
def cleanMasked (e : List Char) : List Char :=
  if hasAst e then pyTitle (partAfterSpace e) else e

/-- Lexicographic strict order on strings by character code points
(Python string comparison, used by pandas when sorting group keys). -/
def strLtB : List Char → List Char → Bool
  | [], [] => false
  | [], _ :: _ => true
  | _ :: _, [] => false
  | a :: as, b :: bs => if a < b then true else if b < a then false else strLtB as bs

/-- Non-strict companion of strLtB. -/
def strLe (a b : List Char) : Bool := !(strLtB b a)

/-- Lexicographic order on pairs of strings (pandas two-key groupby). -/
def pairLe (a b : List Char × List Char) : Bool :=
  strLtB a.1 b.1 || (a.1 == b.1 && strLe a.2 b.2)

/-- Python regex whitespace class (ASCII part). -/
def asciiWs (c : Char) : Bool :=
  c = ' ' || c = '\t' || c = '\n' || c = '\x0b' || c = '\x0c' || c = '\r'

/-- Strip leading whitespace, returning how many characters went. -/
def dropWs : List Char → Nat × List Char
  | [] => (0, [])
  | c :: cs => if asciiWs c then ((dropWs cs).1 + 1, (dropWs cs).2) else (0, c :: cs)

/-- Does the list start with the separator of the paybill pattern
(whitespace, the literal Acc dot, whitespace)?  When it does, return
what follows, i.e. the account capture group. -/
def matchSep (l : List Char) : Option (List Char) :=
  if (dropWs l).1 = 0 then none
  else if ('A' :: 'c' :: 'c' :: '.' :: []).isPrefixOf (dropWs l).2 then
    if (dropWs ((dropWs l).2.drop 4)).1 = 0 then none
    else some (dropWs ((dropWs l).2.drop 4)).2
  else none

/-- Scan for the first position where the separator matches; the prefix
before it is the business-name capture group. -/
def splitAcctGo (pre : List Char) : List Char → List Char × Option (List Char)
  | [] => (pre.reverse, none)
  | c :: cs =>
    match matchSep (c :: cs) with
    | some a => (pre.reverse, some a)
    | none => splitAcctGo (c :: pre) cs

/-- Model of paybill.py line 45: extract business name and optional
account reference from the entity string. -/
def splitAcct (s : List Char) : List Char × Option (List Char) :=
  splitAcctGo [] s

/-- Python str applied to the account cell: an unmatched capture group
is a float NaN and prints as nan. -/
def optAcctStr : Option (List Char) → List Char
  | some a => a
  | none => 'n' :: 'a' :: 'n' :: []

/-- The agg_concat helper of paybill.py lines 42-43: comma-space join. -/
def joinComma : List (List Char) → List Char
  | [] => []
  | [a] => a
  | a :: b :: t => a ++ (',' :: ' ' :: []) ++ joinComma (b :: t)

/-- numpy astype(int): truncation toward zero. -/
def ratTrunc (q : ℚ) : ℤ :=
  if q < 0 then -(Rat.floor (-q)) else Rat.floor q

/-- Round half to even to an integer (Python round on a float). -/
def roundHalfEven (q : ℚ) : ℤ :=
  if q - Rat.floor q < 1/2 then Rat.floor q
  else if (1:ℚ)/2 < q - Rat.floor q then Rat.floor q + 1
  else if Rat.floor q % 2 = 0 then Rat.floor q else Rat.floor q + 1

/-- Python round(x, d). -/
def pyRound (q : ℚ) (d : Nat) : ℚ := (roundHalfEven (q * 10 ^ d) : ℚ) / 10 ^ d

/-- Stable insertion step: place x before the first y it may precede. -/
def insBy (le : α → α → Bool) (x : α) : List α → List α
  | [] => [x]
  | y :: ys => if le x y then x :: y :: ys else y :: insBy le x ys

/-- Stable insertion sort with respect to a boolean total preorder. -/
def isortBy (le : α → α → Bool) : List α → List α
  | [] => []
  | x :: xs => insBy le x (isortBy le xs)

/-- Comparison used for sort_values descending by a rational rank. -/
def leDescBy (r : α → ℚ) (a b : α) : Bool := decide (r b ≤ r a)

/-- Comparison used for sort_values ascending by a rational rank. -/
def leAscBy (r : α → ℚ) (a b : α) : Bool := decide (r a ≤ r b)

/-- sort_values descending (stable). -/
def sortDescQ (r : α → ℚ) (l : List α) : List α := isortBy (leDescBy r) l

/-- sort_values ascending (stable). -/
def sortAscQ (r : α → ℚ) (l : List α) : List α := isortBy (leAscBy r) l

/-- Distinct group keys in ascending order, as pandas groupby yields
them for a string key. -/
def groupKeysStr (ks : List (List Char)) : List (List Char) :=
  isortBy strLe ks.dedup

/-- Distinct group keys in ascending order for a two-string key. -/
def groupKeysPair (ks : List (List Char × List Char)) :
    List (List Char × List Char) :=
  isortBy pairLe ks.dedup

/-- One row of an entity-keyed aggregate table (count and sum columns
of a pandas groupby-agg). -/
structure AggRow where
  entity : List Char
  count  : Nat
  sum    : ℚ
deriving DecidableEq, Repr, Inhabited

/-- groupby entity followed by agg count and sum of the chosen amount
column — keys ascending, one output row per distinct entity. -/
def aggByEntity (amt : Row → ℚ) (rows : List Row) : List AggRow :=
  (groupKeysStr (rows.map Row.entity)).map (fun k =>
    { entity := k
      count := (rows.filter (fun r => decide (r.entity = k))).length
      sum := ((rows.filter (fun r => decide (r.entity = k))).map amt).sum })

/-! ## Merchant payments (src/utils/merchantpayments.py) -/

/-- Rows whose type_class contains the membership marker. -/
def merchantRows (df : List Row) : List Row :=
  df.filter (fun r => substrB ("Merchant Payment".toList) r.type_class)

/-- merchantFrame of merchantpayments.py lines 53-62: filter, group by
entity, aggregate, sort by sum descending. -/
def merchantFrame (df : List Row) : List AggRow :=
  sortDescQ AggRow.sum (aggByEntity Row.withdrawn (merchantRows df))

/-- The data returned by merchant_box (the figure is presentation). -/
structure MerchantResult where
  table        : List AggRow
  totalspend   : ℚ
  totalcharges : ℚ
  count        : Nat
deriving DecidableEq, Repr

/-- merchant_box of merchantpayments.py lines 18-101. -/
def merchant_box (df : List Row) : MerchantResult :=
  { table := merchantFrame df
    totalspend := ((merchantFrame df).map AggRow.sum).sum
    totalcharges :=
      pyRound (((df.filter (fun r =>
        substrB ("Pay Merchant".toList) r.type_class)).map Row.withdrawn).sum) 2
    count := ((merchantFrame df).map AggRow.count).sum }

/-! ## Pay-bill payments (src/utils/paybill.py) -/

/-- Category membership marker test. -/
def paybillPred (r : Row) : Bool := substrB ("Pay Bill".toList) r.type_class

/-- Charge marker test within the category. -/
def paybillChargeP (r : Row) : Bool := substrB ("Charge".toList) r.type_desc

/-- Principal rows: member and not a charge (paybill.py lines 27-30). -/
def paybillRows (df : List Row) : List Row :=
  df.filter (fun r => paybillPred r && !(paybillChargeP r))

/-- Charge rows (paybill.py lines 32-36). -/
def paybillChargeRows (df : List Row) : List Row :=
  df.filter (fun r => paybillPred r && paybillChargeP r)

/-- paybillCharges of paybill.py line 40: iloc 0 1 of the entity-keyed
charge aggregate — the total of the first group key — or zero when the
charge frame is empty. -/
def paybillChargesHead (df : List Row) : ℚ :=
  match groupKeysStr ((paybillChargeRows df).map Row.entity) with
  | [] => 0
  | k :: _ =>
    (((paybillChargeRows df).filter
      (fun r => decide (r.entity = k))).map Row.withdrawn).sum

/-- Principal rows after the extract of paybill.py line 45: business
name, optional account reference, amount. -/
def paybillSplitRows (df : List Row) :
    List ((List Char × Option (List Char)) × ℚ) :=
  (paybillRows df).map (fun r => (splitAcct r.entity, r.withdrawn))

/-- One row of the paybill aggregate table. -/
structure PaybillRow where
  entity2  : List Char
  count    : Nat
  sum      : ℚ
  accounts : List Char
deriving DecidableEq, Repr

/-- paybillFrame of paybill.py lines 49-58: group by business name,
aggregate count, sum and the comma-joined accounts, sort descending. -/
def paybillFrame (df : List Row) : List PaybillRow :=
  sortDescQ PaybillRow.sum
    ((groupKeysStr ((paybillSplitRows df).map (fun p => p.1.1))).map (fun k =>
      { entity2 := k
        count := ((paybillSplitRows df).filter (fun p => decide (p.1.1 = k))).length
        sum := (((paybillSplitRows df).filter (fun p => decide (p.1.1 = k))).map
          (fun p => p.2)).sum
        accounts := joinComma (((paybillSplitRows df).filter
          (fun p => decide (p.1.1 = k))).map (fun p => optAcctStr p.1.2)) }))

/-- The data returned by paybill_box. -/
structure PaybillResult where
  table        : List PaybillRow
  totalsent    : ℤ
  totalcharges : ℚ
  count        : Nat
deriving DecidableEq, Repr

/-- paybill_box of paybill.py lines 4-92. -/
def paybill_box (df : List Row) : PaybillResult :=
  { table := paybillFrame df
    totalsent := ratTrunc (((paybillFrame df).map PaybillRow.sum).sum)
    totalcharges := pyRound (paybillChargesHead df) 2
    count := ((paybillFrame df).map PaybillRow.count).sum }

/-! ## Peer transfers (src/utils/customertransfer.py) -/

/-- Category membership marker test. -/
def ctPred (r : Row) : Bool :=
  substrB ("Customer Transfer".toList) r.type_class

/-- The exact charge marker of customertransfer.py lines 57-58. -/
def ctChargeDesc : List Char := "of Funds Charge".toList

/-- Charge rows: member rows whose type_desc equals the marker. -/
def ctChargeRows (df : List Row) : List Row :=
  (df.filter ctPred).filter (fun r => decide (r.type_desc = ctChargeDesc))

/-- Principal rows: member rows whose type_desc differs from it. -/
def ctPrincipalRows (df : List Row) : List Row :=
  (df.filter ctPred).filter (fun r => !(decide (r.type_desc = ctChargeDesc)))

/-- transferFrame of customertransfer.py lines 60-80: mask cleanup on
the entity column, group by entity, aggregate, sort descending. -/
def transferFrame (df : List Row) : List AggRow :=
  sortDescQ AggRow.sum (aggByEntity Row.withdrawn
    ((ctPrincipalRows df).map (fun r => { r with entity := cleanMasked r.entity })))

/-- The charge aggregate of customertransfer.py lines 86-91, keyed by
type_class and sorted descending by sum. -/
def ctChargeAgg (df : List Row) : List AggRow :=
  sortDescQ AggRow.sum
    ((groupKeysStr ((ctChargeRows df).map Row.type_class)).map (fun k =>
      { entity := k
        count := ((ctChargeRows df).filter
          (fun r => decide (r.type_class = k))).length
        sum := (((ctChargeRows df).filter
          (fun r => decide (r.type_class = k))).map Row.withdrawn).sum }))

/-- The data returned by customer_transfer_box when it returns. -/
structure CTResult where
  table        : List AggRow
  totalspend   : ℤ
  totalcharges : ℚ
  count        : Nat
deriving DecidableEq, Repr

/-- The value customer_transfer_box builds when the charge frame is
non-empty. -/
def ctResultOf (df : List Row) : CTResult :=
  { table := transferFrame df
    totalspend := ratTrunc (((transferFrame df).map AggRow.sum).sum)
    totalcharges := ((ctChargeAgg df).headI).sum
    count := ((transferFrame df).map AggRow.count).sum }

/-- customer_transfer_box of customertransfer.py lines 23-121.  Line 91
evaluates iloc 0 1 on the charge aggregate without an emptiness guard
(contrast paybill.py line 40): on a ledger without any charge row this
raises IndexError, modelled as none. -/
def customer_transfer_box (df : List Row) : Option CTResult :=
  if (ctChargeRows df).isEmpty then none else some (ctResultOf df)

/-! ## Received funds (src/utils/receivemoney.py) -/

/-- Category membership marker test. -/
def rmPred (r : Row) : Bool :=
  substrB ("Funds received".toList) r.type_class

/-- Business sub-population marker test. -/
def rmBusP (r : Row) : Bool := substrB ("Business".toList) r.type_desc

/-- The re-tagging lambda of receivemoney.py lines 56-58. -/
def retagDesc (d : List Char) : List Char :=
  if ("from".toList).isSuffixOf d then "Individual".toList
  else "Business".toList

/-- Individual-sender rows after mask cleanup (lines 30-47). -/
def receiveIndivRows (df : List Row) : List Row :=
  (df.filter (fun r => rmPred r && !(rmBusP r))).map
    (fun r => { r with entity := cleanMasked r.entity })

/-- Business-sender rows, kept as-is (lines 49-52). -/
def receiveBusRows (df : List Row) : List Row :=
  df.filter (fun r => rmPred r && rmBusP r)

/-- The concatenated and re-tagged frame (lines 54-58). -/
def receiveFrameRows (df : List Row) : List Row :=
  (receiveIndivRows df ++ receiveBusRows df).map
    (fun r => { r with type_desc := retagDesc r.type_desc })

/-- One row of the received-funds aggregate, keyed by entity and tag. -/
structure ReceiveRow where
  entity : List Char
  kind   : List Char
  count  : Nat
  sum    : ℚ
deriving DecidableEq, Repr

/-- receiveFrame of receivemoney.py lines 60-64: two-key groupby with
sum and count of paid_in; pandas leaves it in key order. -/
def receiveFrame (df : List Row) : List ReceiveRow :=
  (groupKeysPair ((receiveFrameRows df).map
      (fun r => (r.entity, r.type_desc)))).map (fun k =>
    { entity := k.1
      kind := k.2
      count := ((receiveFrameRows df).filter
        (fun r => decide ((r.entity, r.type_desc) = k))).length
      sum := (((receiveFrameRows df).filter
        (fun r => decide ((r.entity, r.type_desc) = k))).map Row.paid_in).sum })

/-- The data returned by receive_money_box. -/
structure ReceiveResult where
  table         : List ReceiveRow
  totalreceived : ℤ
  count         : Nat
deriving DecidableEq, Repr

/-- receive_money_box of receivemoney.py lines 5-98. -/
def receive_money_box (df : List Row) : ReceiveResult :=
  { table := receiveFrame df
    totalreceived := ratTrunc (((receiveFrame df).map ReceiveRow.sum).sum)
    count := ((receiveFrame df).map ReceiveRow.count).sum }

/-! ## Cash withdrawals (src/utils/cashwithdrawal.py) -/

/-- withdrawalFrame of cashwithdrawal.py lines 37-46. -/
def withdrawalFrame (df : List Row) : List AggRow :=
  sortDescQ AggRow.sum (aggByEntity Row.withdrawn
    (df.filter (fun r => substrB ("Customer Withdrawal".toList) r.type_class)))

/-- The data returned by cash_withdrawal_box. -/
structure CashResult where
  table           : List AggRow
  totalwithdrawal : ℤ
  totalcharges    : ℚ
  count           : Nat
deriving DecidableEq, Repr

/-- cash_withdrawal_box of cashwithdrawal.py lines 14-94; the charge
total uses the broader marker over the unfiltered ledger. -/
def cash_withdrawal_box (df : List Row) : CashResult :=
  { table := withdrawalFrame df
    totalwithdrawal := ratTrunc (((withdrawalFrame df).map AggRow.sum).sum)
    totalcharges := pyRound (((df.filter (fun r =>
      substrB ("Cash Withdrawal".toList) r.type_class)).map Row.withdrawn).sum) 1
    count := ((withdrawalFrame df).map AggRow.count).sum }

/-! ## Airtime purchases (src/utils/airtime.py) -/

/-- The entity aggregate before any sorting (groupby key order). -/
def airtimeAggBase (df : List Row) : List AggRow :=
  aggByEntity Row.withdrawn
    (df.filter (fun r => substrB ("Airtime".toList) r.type_class))

/-- airtimeFrame of airtime.py lines 34-43: sorted ascending by sum. -/
def airtimeFrame (df : List Row) : List AggRow :=
  sortAscQ AggRow.sum (airtimeAggBase df)

/-- The data returned by airtime_box. -/
structure AirtimeResult where
  table        : List AggRow
  totalairtime : ℤ
  count        : Nat
deriving DecidableEq, Repr

/-- airtime_box of airtime.py lines 14-69. -/
def airtime_box (df : List Row) : AirtimeResult :=
  { table := airtimeFrame df
    totalairtime := ratTrunc (((airtimeFrame df).map AggRow.sum).sum)
    count := ((airtimeFrame df).map AggRow.count).sum }

/-- The row selection fed to the airtime pie figure, airtime.py line 47:
nlargest by sum (stable descending sort then take) re-sorted descending
for display. -/
def airtimeDisplaySelection (df : List Row) (n : Nat) : List AggRow :=
  sortDescQ AggRow.sum ((sortDescQ AggRow.sum (airtimeFrame df)).take n)

/-- Follows the spec's words for the airtime refinement: ordinary
top-N-by-total — take the n largest aggregates by total amount (stable)
and present them sorted descending. -/
def topNByTotal (t : List AggRow) (n : Nat) : List AggRow :=
  sortDescQ AggRow.sum ((sortDescQ AggRow.sum t).take n)

/-! ## Concrete example ledgers used by the claim theorems -/

/-- Build one ledger row from plain strings and amounts. -/
def mkRow (tc td en : String) (w pin : ℚ) : Row :=
  { type_class := tc.toList, type_desc := td.toList, entity := en.toList
    withdrawn := w, paid_in := pin }

def exC1df : List Row := [mkRow "Pay Bill" "to" "KPLC" (1/2) 0]

def exC1ctdf : List Row :=
  [mkRow "Customer Transfer" "to" "P" 3 0,
   mkRow "Customer Transfer" "of Funds Charge" "x" 1 0]

def exC2df : List Row := [mkRow "Customer Transfer" "to" "2547**1 Al Bo" 50 0]

def exC3ctdf : List Row :=
  [mkRow "Customer Transfer" "Transfer of Funds to" "2547*****23 John Doe" 250 0,
   mkRow "Customer Transfer" "of Funds Charge" "x" 10 0]

def exC3rmdf : List Row :=
  [mkRow "Funds received" "from" "2547*****23 John Doe" 0 750]

def exC4df : List Row :=
  [mkRow "Customer Transfer" "Transfer of Funds to" "SAFARICOM DATA BUNDLES" 100 0,
   mkRow "Customer Transfer" "of Funds Charge" "x" 10 0]

def exC5df : List Row :=
  [mkRow "Pay Bill" "to" "KPLC PREPAID Acc. 123" 5 0,
   mkRow "Pay Bill" "to" "KPLC PREPAID" 7 0]

def exC6df : List Row :=
  [mkRow "Pay Bill" "Charge" "A" 5 0,
   mkRow "Pay Bill" "Charge" "B" 10 0]

def exC7df : List Row :=
  [mkRow "Funds received" "from" "2547***12 Jane Roe" 0 1000,
   mkRow "Funds received" "from Business" "ABC Ltd" 0 2000]

def exC7bdf : List Row :=
  [mkRow "Funds received" "from" "ABC" 0 5,
   mkRow "Funds received" "from Business" "ABC" 0 7]

def exC8df : List Row :=
  [mkRow "Merchant Payment" "x" "B" 100 0,
   mkRow "Merchant Payment" "x" "A" 100 0]

def exC8ctdf : List Row :=
  [mkRow "Customer Transfer" "to" "B" 100 0,
   mkRow "Customer Transfer" "to" "A" 100 0,
   mkRow "Customer Transfer" "of Funds Charge" "x" 10 0]

def exC10ctdf : List Row :=
  [mkRow "Customer Transfer" "to" "P" (7/2) 0,
   mkRow "Customer Transfer" "of Funds Charge" "x" 1 0]

/-! ## Sorting lemmas -/

theorem insBy_perm (le : α → α → Bool) (x : α) (l : List α) :
    List.Perm (insBy le x l) (x :: l) := by
  induction l with
  | nil => exact List.Perm.refl _
  | cons y ys ih =>
    rw [insBy]
    split
    · exact List.Perm.refl _
    · exact (ih.cons y).trans (List.Perm.swap x y ys)

theorem isortBy_perm (le : α → α → Bool) (l : List α) :
    List.Perm (isortBy le l) l := by
  induction l with
  | nil => exact List.Perm.refl _
  | cons x xs ih => exact (insBy_perm le x (isortBy le xs)).trans (ih.cons x)

theorem mem_insBy (le : α → α → Bool) (x a : α) (l : List α) :
    a ∈ insBy le x l ↔ a = x ∨ a ∈ l := by
  rw [(insBy_perm le x l).mem_iff, List.mem_cons]

theorem pairwise_insBy (le : α → α → Bool)
    (htot : ∀ a b, le a b = true ∨ le b a = true)
    (htr : ∀ a b c, le a b = true → le b c = true → le a c = true)
    (x : α) (l : List α) (hl : l.Pairwise (fun a b => le a b = true)) :
    (insBy le x l).Pairwise (fun a b => le a b = true) := by
  induction l with
  | nil => simp [insBy]
  | cons y ys ih =>
    rcases List.pairwise_cons.mp hl with ⟨hy, hys⟩
    by_cases h : le x y = true
    · rw [insBy, if_pos h]
      refine List.Pairwise.cons (fun b hb => ?_) hl
      rcases List.mem_cons.mp hb with rfl | hb
      · exact h
      · exact htr x y b h (hy b hb)
    · rw [insBy, if_neg (by simp [h])]
      refine List.Pairwise.cons (fun b hb => ?_) (ih hys)
      rcases (mem_insBy le x b ys).mp hb with hbx | hb
      · rw [hbx]
        rcases htot x y with hxy | hyx
        · exact absurd hxy h
        · exact hyx
      · exact hy b hb

theorem pairwise_isortBy (le : α → α → Bool)
    (htot : ∀ a b, le a b = true ∨ le b a = true)
    (htr : ∀ a b c, le a b = true → le b c = true → le a c = true)
    (l : List α) :
    (isortBy le l).Pairwise (fun a b => le a b = true) := by
  induction l with
  | nil => simp [isortBy]
  | cons x xs ih => exact pairwise_insBy le htot htr x _ ih

theorem pairwise_insBy_tie (r : α → ℚ) (T : α → α → Prop) (x : α) (l : List α)
    (hl : l.Pairwise (fun a b => r b < r a ∨ (r b = r a ∧ T a b)))
    (hx : ∀ y ∈ l, T x y) :
    (insBy (leDescBy r) x l).Pairwise
      (fun a b => r b < r a ∨ (r b = r a ∧ T a b)) := by
  induction l with
  | nil => simp [insBy]
  | cons y ys ih =>
    rcases List.pairwise_cons.mp hl with ⟨hy, hys⟩
    by_cases h : r y ≤ r x
    · rw [insBy, if_pos (by simp [leDescBy, h])]
      refine List.Pairwise.cons (fun b hb => ?_) hl
      rcases List.mem_cons.mp hb with rfl | hb
      · rcases lt_or_eq_of_le h with hlt | heq
        · exact Or.inl hlt
        · exact Or.inr ⟨heq, hx b (by simp)⟩
      · rcases hy b hb with hlt | ⟨heq, _⟩
        · exact Or.inl (lt_of_lt_of_le hlt h)
        · rcases lt_or_eq_of_le (heq ▸ h) with hlt | heq2
          · exact Or.inl hlt
          · exact Or.inr ⟨heq2, hx b (List.mem_cons_of_mem y hb)⟩
    · have hxy : r x < r y := lt_of_not_le h
      rw [insBy, if_neg (by simp [leDescBy, h])]
      refine List.Pairwise.cons (fun b hb => ?_)
        (ih hys (fun z hz => hx z (List.mem_cons_of_mem y hz)))
      rcases (mem_insBy (leDescBy r) x b ys).mp hb with hbx | hb
      · rw [hbx]
        exact Or.inl hxy
      · exact hy b hb

theorem pairwise_sortDescQ_tie (r : α → ℚ) (T : α → α → Prop) (l : List α)
    (h : l.Pairwise T) :
    (sortDescQ r l).Pairwise (fun a b => r b < r a ∨ (r b = r a ∧ T a b)) := by
  induction l with
  | nil => simp [sortDescQ, isortBy]
  | cons x xs ih =>
    rcases List.pairwise_cons.mp h with ⟨hx, hxs⟩
    exact pairwise_insBy_tie r T x _ (ih hxs)
      (fun y hy => hx y ((isortBy_perm _ xs).mem_iff.mp hy))

theorem pairwise_true (l : List α) : l.Pairwise (fun _ _ => True) := by
  induction l with
  | nil => exact List.Pairwise.nil
  | cons x xs ih => exact List.Pairwise.cons (fun _ _ => trivial) ih

theorem pairwise_sortDescQ (r : α → ℚ) (l : List α) :
    (sortDescQ r l).Pairwise (fun a b => r b ≤ r a) := by
  exact (pairwise_sortDescQ_tie r (fun _ _ => True) l (pairwise_true l)).imp
    (by rintro a b (hlt | ⟨heq, -⟩); exacts [le_of_lt hlt, le_of_eq heq])

theorem sortDescQ_of_sorted (r : α → ℚ) (l : List α)
    (h : l.Pairwise (fun a b => r b ≤ r a)) : sortDescQ r l = l := by
  induction l with
  | nil => rfl
  | cons x xs ih =>
    rcases List.pairwise_cons.mp h with ⟨hx, hxs⟩
    show insBy (leDescBy r) x (sortDescQ r xs) = x :: xs
    rw [ih hxs]
    cases xs with
    | nil => rfl
    | cons y ys =>
      have hy : leDescBy r x y = true := by
        simp [leDescBy, hx y (by simp)]
      rw [insBy, if_pos hy]

theorem insDesc_comm (r : α → ℚ) (x y : α) (h : r y < r x) (t : List α) :
    insBy (leDescBy r) y (insBy (leDescBy r) x t)
      = insBy (leDescBy r) x (insBy (leDescBy r) y t) := by
  have hyx : leDescBy r y x = false := by simp [leDescBy, not_le.mpr h]
  have hxy : leDescBy r x y = true := by simp [leDescBy, le_of_lt h]
  induction t with
  | nil => simp [insBy, hyx, hxy]
  | cons z zs ih =>
    by_cases hzx : r z ≤ r x
    · by_cases hzy : r z ≤ r y
      · have h1 : leDescBy r x z = true := by simp [leDescBy, hzx]
        have h2 : leDescBy r y z = true := by simp [leDescBy, hzy]
        simp [insBy, h1, h2, hyx, hxy]
      · have h1 : leDescBy r x z = true := by simp [leDescBy, hzx]
        have h2 : leDescBy r y z = false := by simp [leDescBy, hzy]
        simp [insBy, h1, h2, hyx, hxy]
    · have hzy : ¬ r z ≤ r y := fun hc => hzx (hc.trans (le_of_lt h))
      have h1 : leDescBy r x z = false := by simp [leDescBy, hzx]
      have h2 : leDescBy r y z = false := by simp [leDescBy, hzy]
      simp [insBy, h1, h2, ih]

theorem sortDescQ_insAsc (r : α → ℚ) (x : α) (m : List α) :
    sortDescQ r (insBy (leAscBy r) x m) = insBy (leDescBy r) x (sortDescQ r m) := by
  induction m with
  | nil => rfl
  | cons y ys ih =>
    by_cases hxy : r x ≤ r y
    · have h1 : leAscBy r x y = true := by simp [leAscBy, hxy]
      rw [insBy, if_pos h1]
      rfl
    · have h1 : leAscBy r x y = false := by simp [leAscBy, hxy]
      have hlt : r y < r x := lt_of_not_le hxy
      rw [insBy, if_neg (by simp [h1])]
      show insBy (leDescBy r) y (sortDescQ r (insBy (leAscBy r) x ys))
        = insBy (leDescBy r) x (insBy (leDescBy r) y (sortDescQ r ys))
      rw [ih, insDesc_comm r x y hlt]

theorem sortDescQ_sortAscQ (r : α → ℚ) (l : List α) :
    sortDescQ r (sortAscQ r l) = sortDescQ r l := by
  induction l with
  | nil => rfl
  | cons x xs ih =>
    show sortDescQ r (insBy (leAscBy r) x (sortAscQ r xs)) = _
    rw [sortDescQ_insAsc, ih]
    rfl

/-! ## Lexicographic order lemmas -/

theorem strLtB_irrefl (a : List Char) : strLtB a a = false := by
  induction a with
  | nil => rfl
  | cons c cs ih => simp [strLtB, ih]

theorem strLtB_asymm (a b : List Char) (h : strLtB a b = true) :
    strLtB b a = false := by
  induction a generalizing b with
  | nil =>
    cases b with
    | nil => simp [strLtB] at h
    | cons d ds => simp [strLtB]
  | cons c cs ih =>
    cases b with
    | nil => simp [strLtB] at h
    | cons d ds =>
      rcases lt_trichotomy c d with h1 | h1 | h1
      · simp [strLtB, h1, asymm h1, lt_asymm h1]
      · subst h1
        simp only [strLtB, lt_irrefl, if_false] at h ⊢
        exact ih ds h
      · simp [strLtB, h1, asymm h1, lt_asymm h1] at h

theorem strLtB_trans (a b c : List Char) (hab : strLtB a b = true)
    (hbc : strLtB b c = true) : strLtB a c = true := by
  induction a generalizing b c with
  | nil =>
    cases b with
    | nil => simp [strLtB] at hab
    | cons d ds =>
      cases c with
      | nil => simp [strLtB] at hbc
      | cons e es => simp [strLtB]
  | cons x xs ih =>
    cases b with
    | nil => simp [strLtB] at hab
    | cons d ds =>
      cases c with
      | nil => simp [strLtB] at hbc
      | cons e es =>
        rcases lt_trichotomy x d with h1 | h1 | h1
        · rcases lt_trichotomy d e with h2 | h2 | h2
          · have : x < e := h1.trans h2
            simp [strLtB, this, lt_asymm this]
          · subst h2
            simp [strLtB, h1, lt_asymm h1]
          · simp [strLtB, h2, lt_asymm h2] at hbc
        · subst h1
          simp only [strLtB, lt_irrefl, if_false] at hab
          rcases lt_trichotomy x e with h2 | h2 | h2
          · simp [strLtB, h2, lt_asymm h2]
          · subst h2
            simp only [strLtB, lt_irrefl, if_false] at hbc ⊢
            exact ih ds es hab hbc
          · simp [strLtB, h2, lt_asymm h2] at hbc
        · simp [strLtB, h1, lt_asymm h1] at hab

theorem strLtB_conn (a b : List Char) (hne : a ≠ b) :
    strLtB a b = true ∨ strLtB b a = true := by
  induction a generalizing b with
  | nil =>
    cases b with
    | nil => exact absurd rfl hne
    | cons d ds => simp [strLtB]
  | cons c cs ih =>
    cases b with
    | nil => simp [strLtB]
    | cons d ds =>
      rcases lt_trichotomy c d with h1 | h1 | h1
      · left; simp [strLtB, h1]
      · subst h1
        have hne2 : cs ≠ ds := fun h => hne (by rw [h])
        rcases ih ds hne2 with h2 | h2
        · left; simp [strLtB, h2]
        · right; simp [strLtB, h2]
      · right; simp [strLtB, h1]

theorem strLe_total (a b : List Char) : strLe a b = true ∨ strLe b a = true := by
  cases hv : strLtB b a with
  | false => left; simp [strLe, hv]
  | true => right; simp [strLe, strLtB_asymm b a hv]

theorem strLe_trans (a b c : List Char) (h1 : strLe a b = true)
    (h2 : strLe b c = true) : strLe a c = true := by
  simp only [strLe, Bool.not_eq_true'] at h1 h2 ⊢
  cases hca : strLtB c a with
  | false => rfl
  | true =>
    exfalso
    by_cases hcb : c = b
    · rw [hcb] at hca
      rw [hca] at h1
      exact Bool.noConfusion h1
    · rcases strLtB_conn c b hcb with h3 | h3
      · rw [h3] at h2
        exact Bool.noConfusion h2
      · have h4 := strLtB_trans b c a h3 hca
        rw [h4] at h1
        exact Bool.noConfusion h1

theorem pairLe_total (a b : List Char × List Char) :
    pairLe a b = true ∨ pairLe b a = true := by
  by_cases h1 : a.1 = b.1
  · rcases strLe_total a.2 b.2 with h2 | h2
    · left; simp [pairLe, h1, h2]
    · right; simp [pairLe, h1.symm, h2]
  · rcases strLtB_conn a.1 b.1 h1 with h2 | h2
    · left; simp [pairLe, h2]
    · right; simp [pairLe, h2]

theorem pairLe_trans (a b c : List Char × List Char) (h1 : pairLe a b = true)
    (h2 : pairLe b c = true) : pairLe a c = true := by
  simp only [pairLe, Bool.or_eq_true, Bool.and_eq_true, beq_iff_eq] at h1 h2 ⊢
  rcases h1 with h1 | ⟨h1e, h1le⟩
  · rcases h2 with h2 | ⟨h2e, h2le⟩
    · exact Or.inl (strLtB_trans _ _ _ h1 h2)
    · exact Or.inl (by rw [← h2e]; exact h1)
  · rcases h2 with h2 | ⟨h2e, h2le⟩
    · exact Or.inl (by rw [h1e]; exact h2)
    · exact Or.inr ⟨h1e.trans h2e, strLe_trans _ _ _ h1le h2le⟩

/-! ## Group key lemmas -/

theorem mem_groupKeysStr (ks : List (List Char)) (k : List Char) :
    k ∈ groupKeysStr ks ↔ k ∈ ks :=
  ((isortBy_perm strLe ks.dedup).mem_iff).trans List.mem_dedup

theorem nodup_groupKeysStr (ks : List (List Char)) : (groupKeysStr ks).Nodup :=
  ((isortBy_perm strLe ks.dedup).nodup_iff).mpr (List.nodup_dedup ks)

theorem sorted_groupKeysStr (ks : List (List Char)) :
    (groupKeysStr ks).Pairwise (fun a b => strLe a b = true) :=
  pairwise_isortBy strLe strLe_total strLe_trans _

theorem strict_groupKeysStr (ks : List (List Char)) :
    (groupKeysStr ks).Pairwise (fun a b => strLtB a b = true) := by
  refine ((sorted_groupKeysStr ks).and (nodup_groupKeysStr ks)).imp ?_
  rintro a b ⟨hle, hne⟩
  rcases strLtB_conn a b hne with h | h
  · exact h
  · exfalso
    simp only [strLe, Bool.not_eq_true'] at hle
    rw [h] at hle
    exact Bool.noConfusion hle

theorem mem_groupKeysPair (ks : List (List Char × List Char))
    (k : List Char × List Char) : k ∈ groupKeysPair ks ↔ k ∈ ks :=
  ((isortBy_perm pairLe ks.dedup).mem_iff).trans List.mem_dedup

theorem nodup_groupKeysPair (ks : List (List Char × List Char)) :
    (groupKeysPair ks).Nodup :=
  ((isortBy_perm pairLe ks.dedup).nodup_iff).mpr (List.nodup_dedup ks)

/-! ## Partition of sums over groups -/

theorem sum_map_zero_const {κ M : Type*} [AddCommMonoid M] (K : List κ) :
    (K.map (fun _ => (0:M))).sum = 0 := by
  induction K with
  | nil => rfl
  | cons a A ih => simp [ih]

theorem sum_map_ite_mem {κ M : Type*} [DecidableEq κ] [AddCommMonoid M]
    (k0 : κ) (c : M) (K : List κ) (hnd : K.Nodup) (hk : k0 ∈ K) :
    (K.map (fun k => if k0 = k then c else 0)).sum = c := by
  induction K with
  | nil => cases hk
  | cons a A ih =>
    rcases List.nodup_cons.mp hnd with ⟨hna, hA⟩
    rcases List.mem_cons.mp hk with heq | hkA
    · simp only [List.map_cons, List.sum_cons, if_pos heq]
      have hz : (A.map (fun k => if k0 = k then c else 0)).sum = 0 := by
        have : ∀ x ∈ A.map (fun k => if k0 = k then c else 0), x = 0 := by
          intro x hx
          rcases List.mem_map.mp hx with ⟨k, hkA2, hxe⟩
          rw [← hxe, if_neg (fun e => hna (by rw [heq.symm.trans e]; exact hkA2))]
        calc (A.map (fun k => if k0 = k then c else 0)).sum
            = (A.map (fun _ => (0:M))).sum := by
              apply congrArg List.sum
              apply List.map_congr_left
              intro k hkA2
              exact if_neg (fun e => hna (by rw [heq.symm.trans e]; exact hkA2))
          _ = 0 := sum_map_zero_const A
      rw [hz, add_zero]
    · have hne : k0 ≠ a := fun e => hna (by rw [← e]; exact hkA)
      simp only [List.map_cons, List.sum_cons, if_neg hne]
      rw [ih hA hkA, zero_add]

theorem groups_sum {κ α M : Type*} [DecidableEq κ] [AddCommMonoid M]
    (key : α → κ) (amt : α → M) (K : List κ) (rows : List α)
    (hnd : K.Nodup) (hmem : ∀ r ∈ rows, key r ∈ K) :
    (K.map (fun k =>
        ((rows.filter (fun r => decide (key r = k))).map amt).sum)).sum
      = (rows.map amt).sum := by
  induction rows with
  | nil => simp [sum_map_zero_const]
  | cons r rs ih =>
    have hr : key r ∈ K := hmem r (by simp)
    have step : ∀ k : κ,
        (((r :: rs).filter (fun r2 => decide (key r2 = k))).map amt).sum
        = (if key r = k then amt r else 0)
          + ((rs.filter (fun r2 => decide (key r2 = k))).map amt).sum := by
      intro k
      by_cases h : key r = k
      · simp [List.filter_cons, h]
      · simp [List.filter_cons, h]
    simp only [step]
    rw [List.sum_map_add]
    rw [ih (fun x hx => hmem x (List.mem_cons_of_mem r hx))]
    rw [sum_map_ite_mem (key r) (amt r) K hnd hr]
    simp

theorem length_eq_sum_ones {α : Type*} (l : List α) :
    (l.map (fun _ => (1:ℕ))).sum = l.length := by
  induction l with
  | nil => rfl
  | cons x xs ih => simp [ih, Nat.add_comm]

theorem groups_length {κ α : Type*} [DecidableEq κ]
    (key : α → κ) (K : List κ) (rows : List α)
    (hnd : K.Nodup) (hmem : ∀ r ∈ rows, key r ∈ K) :
    (K.map (fun k => (rows.filter (fun r => decide (key r = k))).length)).sum
      = rows.length := by
  have h := groups_sum key (fun _ => (1:ℕ)) K rows hnd hmem
  simp only [length_eq_sum_ones] at h
  exact h

/-! ## Frame-level helper lemmas -/

theorem sortDescQ_map_sum {α M : Type*} [AddCommMonoid M] (r : α → ℚ)
    (f : α → M) (l : List α) :
    ((sortDescQ r l).map f).sum = (l.map f).sum :=
  ((isortBy_perm (leDescBy r) l).map f).sum_eq

theorem sortAscQ_map_sum {α M : Type*} [AddCommMonoid M] (r : α → ℚ)
    (f : α → M) (l : List α) :
    ((sortAscQ r l).map f).sum = (l.map f).sum :=
  ((isortBy_perm (leAscBy r) l).map f).sum_eq

theorem aggByEntity_sum (amt : Row → ℚ) (rows : List Row) :
    ((aggByEntity amt rows).map AggRow.sum).sum = (rows.map amt).sum := by
  unfold aggByEntity
  rw [List.map_map]
  have h : (AggRow.sum ∘ fun k =>
      ({ entity := k,
         count := (rows.filter (fun r => decide (r.entity = k))).length,
         sum := ((rows.filter (fun r => decide (r.entity = k))).map amt).sum }
        : AggRow))
      = fun k => ((rows.filter (fun r => decide (r.entity = k))).map amt).sum :=
    rfl
  rw [h]
  exact groups_sum Row.entity amt _ rows (nodup_groupKeysStr _)
    (fun r hr => (mem_groupKeysStr _ _).mpr (List.mem_map_of_mem Row.entity hr))

theorem aggByEntity_count (amt : Row → ℚ) (rows : List Row) :
    ((aggByEntity amt rows).map AggRow.count).sum = rows.length := by
  unfold aggByEntity
  rw [List.map_map]
  have h : (AggRow.count ∘ fun k =>
      ({ entity := k,
         count := (rows.filter (fun r => decide (r.entity = k))).length,
         sum := ((rows.filter (fun r => decide (r.entity = k))).map amt).sum }
        : AggRow))
      = fun k => (rows.filter (fun r => decide (r.entity = k))).length := rfl
  rw [h]
  exact groups_length Row.entity _ rows (nodup_groupKeysStr _)
    (fun r hr => (mem_groupKeysStr _ _).mpr (List.mem_map_of_mem Row.entity hr))

theorem filter_partition_perm {α : Type*} (p b : α → Bool) (l : List α) :
    List.Perm (l.filter p)
      ((l.filter (fun x => p x && !(b x))) ++ (l.filter (fun x => p x && b x))) := by
  induction l with
  | nil => simp
  | cons x xs ih =>
    by_cases hp : p x = true
    · by_cases hb : b x = true
      · simp only [List.filter_cons, hp, hb, Bool.not_true, Bool.and_false,
          Bool.and_true, if_pos, if_neg, Bool.false_eq_true, not_false_eq_true,
          if_true]
        exact (ih.cons x).trans List.perm_middle.symm
      · have hb2 : b x = false := by
          cases hv : b x
          · rfl
          · exact absurd hv hb
        simp only [List.filter_cons, hp, hb2, Bool.not_false, Bool.and_true,
          Bool.and_false, if_true, Bool.false_eq_true, if_false, List.cons_append]
        exact ih.cons x
    · have hp2 : p x = false := by
        cases hv : p x
        · rfl
        · exact absurd hv hp
      simp only [List.filter_cons, hp2, Bool.false_and, Bool.false_eq_true,
        if_false]
      exact ih

theorem merchantFrame_sum (df : List Row) :
    ((merchantFrame df).map AggRow.sum).sum
      = ((merchantRows df).map Row.withdrawn).sum := by
  unfold merchantFrame
  rw [sortDescQ_map_sum]
  exact aggByEntity_sum _ _

theorem merchantFrame_count (df : List Row) :
    ((merchantFrame df).map AggRow.count).sum = (merchantRows df).length := by
  unfold merchantFrame
  rw [sortDescQ_map_sum]
  exact aggByEntity_count _ _

theorem withdrawalFrame_sum (df : List Row) :
    ((withdrawalFrame df).map AggRow.sum).sum
      = ((df.filter (fun r =>
          substrB ("Customer Withdrawal".toList) r.type_class)).map
            Row.withdrawn).sum := by
  unfold withdrawalFrame
  rw [sortDescQ_map_sum]
  exact aggByEntity_sum _ _

theorem withdrawalFrame_count (df : List Row) :
    ((withdrawalFrame df).map AggRow.count).sum
      = (df.filter (fun r =>
          substrB ("Customer Withdrawal".toList) r.type_class)).length := by
  unfold withdrawalFrame
  rw [sortDescQ_map_sum]
  exact aggByEntity_count _ _

theorem airtimeFrame_sum (df : List Row) :
    ((airtimeFrame df).map AggRow.sum).sum
      = ((df.filter (fun r => substrB ("Airtime".toList) r.type_class)).map
          Row.withdrawn).sum := by
  unfold airtimeFrame airtimeAggBase
  rw [sortAscQ_map_sum]
  exact aggByEntity_sum _ _

theorem airtimeFrame_count (df : List Row) :
    ((airtimeFrame df).map AggRow.count).sum
      = (df.filter (fun r => substrB ("Airtime".toList) r.type_class)).length := by
  unfold airtimeFrame airtimeAggBase
  rw [sortAscQ_map_sum]
  exact aggByEntity_count _ _

theorem paybillFrame_sum (df : List Row) :
    ((paybillFrame df).map PaybillRow.sum).sum
      = ((paybillRows df).map Row.withdrawn).sum := by
  unfold paybillFrame
  rw [sortDescQ_map_sum, List.map_map]
  have h : (PaybillRow.sum ∘ fun k =>
      ({ entity2 := k
         count := ((paybillSplitRows df).filter (fun p => decide (p.1.1 = k))).length
         sum := (((paybillSplitRows df).filter (fun p => decide (p.1.1 = k))).map
           (fun p => p.2)).sum
         accounts := joinComma (((paybillSplitRows df).filter
           (fun p => decide (p.1.1 = k))).map (fun p => optAcctStr p.1.2)) }
        : PaybillRow))
      = fun k => (((paybillSplitRows df).filter
          (fun p => decide (p.1.1 = k))).map (fun p => p.2)).sum := rfl
  rw [h]
  have h2 := groups_sum (fun p => p.1.1) (fun p => p.2)
    (groupKeysStr ((paybillSplitRows df).map (fun p => p.1.1)))
    (paybillSplitRows df) (nodup_groupKeysStr _)
    (fun p hp => (mem_groupKeysStr _ _).mpr (List.mem_map_of_mem _ hp))
  rw [h2]
  unfold paybillSplitRows
  rw [List.map_map]
  rfl

theorem paybillFrame_count (df : List Row) :
    ((paybillFrame df).map PaybillRow.count).sum = (paybillRows df).length := by
  unfold paybillFrame
  rw [sortDescQ_map_sum, List.map_map]
  have h : (PaybillRow.count ∘ fun k =>
      ({ entity2 := k
         count := ((paybillSplitRows df).filter (fun p => decide (p.1.1 = k))).length
         sum := (((paybillSplitRows df).filter (fun p => decide (p.1.1 = k))).map
           (fun p => p.2)).sum
         accounts := joinComma (((paybillSplitRows df).filter
           (fun p => decide (p.1.1 = k))).map (fun p => optAcctStr p.1.2)) }
        : PaybillRow))
      = fun k => ((paybillSplitRows df).filter
          (fun p => decide (p.1.1 = k))).length := rfl
  rw [h]
  have h2 := groups_length (fun p => p.1.1)
    (groupKeysStr ((paybillSplitRows df).map (fun p => p.1.1)))
    (paybillSplitRows df) (nodup_groupKeysStr _)
    (fun p hp => (mem_groupKeysStr _ _).mpr (List.mem_map_of_mem _ hp))
  rw [h2]
  unfold paybillSplitRows
  rw [List.length_map]

theorem transferFrame_sum (df : List Row) :
    ((transferFrame df).map AggRow.sum).sum
      = ((ctPrincipalRows df).map Row.withdrawn).sum := by
  unfold transferFrame
  rw [sortDescQ_map_sum, aggByEntity_sum, List.map_map]
  rfl

theorem transferFrame_count (df : List Row) :
    ((transferFrame df).map AggRow.count).sum = (ctPrincipalRows df).length := by
  unfold transferFrame
  rw [sortDescQ_map_sum, aggByEntity_count, List.length_map]

theorem receiveFrameRows_sum (df : List Row) :
    ((receiveFrameRows df).map Row.paid_in).sum
      = ((df.filter (fun r => rmPred r)).map Row.paid_in).sum := by
  unfold receiveFrameRows receiveIndivRows receiveBusRows
  rw [List.map_map]
  have h1 : (Row.paid_in ∘ fun r => { r with type_desc := retagDesc r.type_desc })
      = Row.paid_in := rfl
  rw [h1, List.map_append, List.sum_append, List.map_map]
  have h2 : (Row.paid_in ∘ fun r => { r with entity := cleanMasked r.entity })
      = Row.paid_in := rfl
  rw [h2]
  have hp := (((filter_partition_perm (fun r => rmPred r) (fun r => rmBusP r)
    df).map Row.paid_in).sum_eq)
  rw [hp, List.map_append, List.sum_append]

theorem receiveFrameRows_length (df : List Row) :
    (receiveFrameRows df).length
      = (df.filter (fun r => rmPred r)).length := by
  unfold receiveFrameRows receiveIndivRows receiveBusRows
  rw [List.length_map, List.length_append, List.length_map]
  have hp := ((filter_partition_perm (fun r => rmPred r) (fun r => rmBusP r)
    df).length_eq)
  rw [hp, List.length_append]

theorem receiveFrame_sum (df : List Row) :
    ((receiveFrame df).map ReceiveRow.sum).sum
      = ((receiveFrameRows df).map Row.paid_in).sum := by
  unfold receiveFrame
  rw [List.map_map]
  have h : (ReceiveRow.sum ∘ fun k =>
      ({ entity := k.1
         kind := k.2
         count := ((receiveFrameRows df).filter
           (fun r => decide ((r.entity, r.type_desc) = k))).length
         sum := (((receiveFrameRows df).filter
           (fun r => decide ((r.entity, r.type_desc) = k))).map Row.paid_in).sum }
        : ReceiveRow))
      = fun k => (((receiveFrameRows df).filter
          (fun r => decide ((r.entity, r.type_desc) = k))).map Row.paid_in).sum :=
    rfl
  rw [h]
  exact groups_sum (fun r => (r.entity, r.type_desc)) Row.paid_in
    (groupKeysPair ((receiveFrameRows df).map (fun r => (r.entity, r.type_desc))))
    (receiveFrameRows df) (nodup_groupKeysPair _)
    (fun r hr => (mem_groupKeysPair _ _).mpr (List.mem_map_of_mem _ hr))

theorem receiveFrame_count (df : List Row) :
    ((receiveFrame df).map ReceiveRow.count).sum
      = (receiveFrameRows df).length := by
  unfold receiveFrame
  rw [List.map_map]
  have h : (ReceiveRow.count ∘ fun k =>
      ({ entity := k.1
         kind := k.2
         count := ((receiveFrameRows df).filter
           (fun r => decide ((r.entity, r.type_desc) = k))).length
         sum := (((receiveFrameRows df).filter
           (fun r => decide ((r.entity, r.type_desc) = k))).map Row.paid_in).sum }
        : ReceiveRow))
      = fun k => ((receiveFrameRows df).filter
          (fun r => decide ((r.entity, r.type_desc) = k))).length := rfl
  rw [h]
  exact groups_length (fun r => (r.entity, r.type_desc))
    (groupKeysPair ((receiveFrameRows df).map (fun r => (r.entity, r.type_desc))))
    (receiveFrameRows df) (nodup_groupKeysPair _)
    (fun r hr => (mem_groupKeysPair _ _).mpr (List.mem_map_of_mem _ hr))

theorem ct_box_some (df : List Row) (h : (ctChargeRows df).isEmpty = false) :
    customer_transfer_box df = some (ctResultOf df) := by
  simp [customer_transfer_box, h]

theorem ct_box_some_inv (df : List Row) (res : CTResult)
    (h : customer_transfer_box df = some res) : res = ctResultOf df := by
  unfold customer_transfer_box at h
  cases hv : (ctChargeRows df).isEmpty
  · rw [hv] at h
    simp at h
    exact h.symm
  · rw [hv] at h
    simp at h

theorem mem_aggByEntity (amt : Row → ℚ) (rows : List Row) (a : AggRow)
    (ha : a ∈ aggByEntity amt rows) : ∃ r, r ∈ rows ∧ a.entity = r.entity := by
  unfold aggByEntity at ha
  rcases List.mem_map.mp ha with ⟨k, hk, hmap⟩
  rcases List.mem_map.mp ((mem_groupKeysStr _ _).mp hk) with ⟨r, hr, hre⟩
  refine ⟨r, hr, ?_⟩
  rw [← hmap]
  exact hre.symm

theorem aggByEntity_pairwise (amt : Row → ℚ) (rows : List Row) :
    (aggByEntity amt rows).Pairwise
      (fun a b => strLtB a.entity b.entity = true) := by
  unfold aggByEntity
  rw [List.pairwise_map]
  exact (strict_groupKeysStr _).imp (fun h => h)

theorem sortedTable_tie (amt : Row → ℚ) (rows : List Row) :
    (sortDescQ AggRow.sum (aggByEntity amt rows)).Pairwise
      (fun a b => b.sum < a.sum
        ∨ (b.sum = a.sum ∧ strLtB a.entity b.entity = true)) := by
  have h := pairwise_sortDescQ_tie AggRow.sum
    (fun a b => strLtB a.entity b.entity = true) _ (aggByEntity_pairwise amt rows)
  exact h.imp (fun hab => hab)

/-! ## Name resolver and paybill pattern lemmas -/

theorem partAfterSpace_append (pre post : List Char) (h : ' ' ∉ pre) :
    partAfterSpace (pre ++ ' ' :: post) = post := by
  induction pre with
  | nil => simp [partAfterSpace]
  | cons c cs ih =>
    have hc : c ≠ ' ' := fun e => h (by rw [e]; exact List.mem_cons_self _ _)
    rw [List.cons_append, partAfterSpace, if_neg hc]
    exact ih (fun hm => h (List.mem_cons_of_mem c hm))

theorem partAfterSpace_no_space (s : List Char) (h : ' ' ∉ s) :
    partAfterSpace s = [] := by
  induction s with
  | nil => rfl
  | cons c cs ih =>
    have hc : c ≠ ' ' := fun e => h (by rw [e]; exact List.mem_cons_self _ _)
    rw [partAfterSpace, if_neg hc]
    exact ih (fun hm => h (List.mem_cons_of_mem c hm))

theorem splitAcctGo_none (s : List Char) (pre : List Char)
    (h : ∀ k, k ≤ s.length → matchSep (s.drop k) = none) :
    splitAcctGo pre s = (pre.reverse ++ s, none) := by
  induction s generalizing pre with
  | nil => simp [splitAcctGo]
  | cons c cs ih =>
    have h0 : matchSep (c :: cs) = none := by
      have := h 0 (Nat.zero_le _)
      simpa using this
    rw [splitAcctGo, h0]
    have hcs : ∀ k, k ≤ cs.length → matchSep (cs.drop k) = none := by
      intro k hk
      have := h (k + 1) (Nat.succ_le_succ hk)
      simpa using this
    rw [ih (c :: pre) hcs]
    simp

theorem splitAcct_none (s : List Char)
    (h : ∀ k, k ≤ s.length → matchSep (s.drop k) = none) :
    splitAcct s = (s, none) := by
  unfold splitAcct
  rw [splitAcctGo_none s [] h]
  simp

theorem matchSep_sep (a : List Char)
    (ha : ∀ c, a.head? = some c → asciiWs c = false) :
    matchSep (' ' :: 'A' :: 'c' :: 'c' :: '.' :: ' ' :: a) = some a := by
  cases a with
  | nil => decide
  | cons c cs =>
    have hc : asciiWs c = false := ha c rfl
    simp +decide [matchSep, dropWs, hc]

theorem splitAcctGo_sep (b a : List Char) (pre : List Char)
    (hb : ∀ k, k < b.length →
      matchSep ((b ++ ' ' :: 'A' :: 'c' :: 'c' :: '.' :: ' ' :: a).drop k) = none)
    (ha : ∀ c, a.head? = some c → asciiWs c = false) :
    splitAcctGo pre (b ++ ' ' :: 'A' :: 'c' :: 'c' :: '.' :: ' ' :: a)
      = (pre.reverse ++ b, some a) := by
  induction b generalizing pre with
  | nil =>
    rw [List.nil_append, splitAcctGo, matchSep_sep a ha]
    simp
  | cons c cs ih =>
    have h0 : matchSep (c :: (cs ++ ' ' :: 'A' :: 'c' :: 'c' :: '.' :: ' ' :: a))
        = none := by
      have := hb 0 (Nat.succ_pos _)
      simpa using this
    rw [List.cons_append, splitAcctGo, h0]
    have hcs : ∀ k, k < cs.length →
        matchSep ((cs ++ ' ' :: 'A' :: 'c' :: 'c' :: '.' :: ' ' :: a).drop k)
          = none := by
      intro k hk
      have := hb (k + 1) (Nat.succ_lt_succ hk)
      simpa using this
    rw [ih (c :: pre) hcs]
    simp

theorem splitAcct_sep (b a : List Char)
    (hb : ∀ k, k < b.length →
      matchSep ((b ++ ' ' :: 'A' :: 'c' :: 'c' :: '.' :: ' ' :: a).drop k) = none)
    (ha : ∀ c, a.head? = some c → asciiWs c = false) :
    splitAcct (b ++ ' ' :: 'A' :: 'c' :: 'c' :: '.' :: ' ' :: a) = (b, some a) := by
  unfold splitAcct
  rw [splitAcctGo_sep b a [] hb ha]
  simp

theorem receiveFrameRows_mem (df : List Row) (x : Row) :
    x ∈ receiveFrameRows df ↔
      ∃ r, r ∈ df ∧ rmPred r = true
        ∧ x = { (if rmBusP r = true then r
                 else { r with entity := cleanMasked r.entity }) with
                type_desc := retagDesc r.type_desc } := by
  unfold receiveFrameRows receiveIndivRows receiveBusRows
  rw [List.mem_map]
  constructor
  · rintro ⟨y, hy, rfl⟩
    rcases List.mem_append.mp hy with hyA | hyB
    · rcases List.mem_map.mp hyA with ⟨r, hr, rfl⟩
      rcases List.mem_filter.mp hr with ⟨hrdf, hcond⟩
      simp only [Bool.and_eq_true] at hcond
      rcases hcond with ⟨hrm, hbus⟩
      have hbusf : rmBusP r = false := by
        cases hv : rmBusP r
        · rfl
        · rw [hv] at hbus
          simp at hbus
      refine ⟨r, hrdf, hrm, ?_⟩
      rw [if_neg (by simp [hbusf])]
    · rcases List.mem_filter.mp hyB with ⟨hrdf, hcond⟩
      simp only [Bool.and_eq_true] at hcond
      rcases hcond with ⟨hrm, hbus⟩
      refine ⟨y, hrdf, hrm, ?_⟩
      rw [if_pos hbus]
  · rintro ⟨r, hrdf, hrm, rfl⟩
    by_cases hbus : rmBusP r = true
    · refine ⟨r, ?_, ?_⟩
      · exact List.mem_append.mpr (Or.inr
          (List.mem_filter.mpr ⟨hrdf, by rw [hrm, hbus]; rfl⟩))
      · rw [if_pos hbus]
    · have hbusf : rmBusP r = false := by
        cases hv : rmBusP r
        · rfl
        · exact absurd hv hbus
      refine ⟨{ r with entity := cleanMasked r.entity }, ?_, ?_⟩
      · exact List.mem_append.mpr (Or.inl (List.mem_map.mpr
          ⟨r, List.mem_filter.mpr ⟨hrdf, by rw [hrm, hbusf]; rfl⟩, rfl⟩))
      · rw [if_neg hbus]

theorem roundHalfEven_zero : roundHalfEven 0 = 0 := by
  with_unfolding_all decide

theorem pyRound_zero (d : Nat) : pyRound 0 d = 0 := by
  unfold pyRound
  rw [zero_mul, roundHalfEven_zero]
  simp

theorem groupKeysStr_ne_nil (ks : List (List Char)) (h : ks ≠ []) :
    groupKeysStr ks ≠ [] := by
  cases ks with
  | nil => exact absurd rfl h
  | cons a l =>
    intro hc
    have ha : a ∈ groupKeysStr (a :: l) := (mem_groupKeysStr _ _).mpr (by simp)
    rw [hc] at ha
    cases ha

theorem groupKeysStr_head_min (ks : List (List Char)) (k : List Char)
    (rest : List (List Char)) (h : groupKeysStr ks = k :: rest) :
    ∀ e ∈ ks, strLtB e k = false := by
  intro e he
  have hmem : e ∈ k :: rest := by
    rw [← h]
    exact (mem_groupKeysStr ks e).mpr he
  rcases List.mem_cons.mp hmem with heq | hrest
  · rw [heq]
    exact strLtB_irrefl k
  · have hs := strict_groupKeysStr ks
    rw [h] at hs
    exact strLtB_asymm k e ((List.pairwise_cons.mp hs).1 e hrest)

/-! ## Claim theorems -/

/-- C1 counterexample: the conservation law as stated fails for
paybill_box.  On a one-row pay-bill ledger whose amount is one half, the
aggregate table totals one half while the reported total principal
amount, truncated by astype(int), is zero. -/
theorem C1_counterexample :
    ((paybill_box exC1df).table.map PaybillRow.sum).sum = 1/2
    ∧ (paybill_box exC1df).totalsent = 0
    ∧ ¬ (((paybill_box exC1df).table.map PaybillRow.sum).sum
        = ((paybill_box exC1df).totalsent : ℚ)) := by
  with_unfolding_all decide

/-- C1 amended: transaction-count conservation holds for all six
processors, and the reported count equals the number of matching ledger
rows; amount conservation holds exactly for merchant_box, while the
other five report the toward-zero integer truncation of the aggregate
table total (which itself equals the exact sum of the matching rows), so
their reported total agrees with the table exactly iff that sum is an
integer. -/
theorem C1_conservation_amended (df : List Row) :
    ((merchant_box df).totalspend = ((merchantRows df).map Row.withdrawn).sum
      ∧ ((merchant_box df).table.map AggRow.sum).sum
          = ((merchantRows df).map Row.withdrawn).sum
      ∧ (merchant_box df).count = (merchantRows df).length
      ∧ ((merchant_box df).table.map AggRow.count).sum
          = (merchantRows df).length)
    ∧ ((paybill_box df).totalsent
          = ratTrunc (((paybillRows df).map Row.withdrawn).sum)
      ∧ ((paybill_box df).table.map PaybillRow.sum).sum
          = ((paybillRows df).map Row.withdrawn).sum
      ∧ (paybill_box df).count = (paybillRows df).length
      ∧ ((paybill_box df).table.map PaybillRow.count).sum
          = (paybillRows df).length)
    ∧ ((receive_money_box df).totalreceived
          = ratTrunc (((df.filter (fun r => rmPred r)).map Row.paid_in).sum)
      ∧ ((receive_money_box df).table.map ReceiveRow.sum).sum
          = ((df.filter (fun r => rmPred r)).map Row.paid_in).sum
      ∧ (receive_money_box df).count = (df.filter (fun r => rmPred r)).length
      ∧ ((receive_money_box df).table.map ReceiveRow.count).sum
          = (df.filter (fun r => rmPred r)).length)
    ∧ ((cash_withdrawal_box df).totalwithdrawal
          = ratTrunc (((df.filter (fun r =>
              substrB ("Customer Withdrawal".toList) r.type_class)).map
                Row.withdrawn).sum)
      ∧ ((cash_withdrawal_box df).table.map AggRow.sum).sum
          = ((df.filter (fun r =>
              substrB ("Customer Withdrawal".toList) r.type_class)).map
                Row.withdrawn).sum
      ∧ ((cash_withdrawal_box df).table.map AggRow.count).sum
          = (cash_withdrawal_box df).count)
    ∧ ((airtime_box df).totalairtime
          = ratTrunc (((df.filter (fun r =>
              substrB ("Airtime".toList) r.type_class)).map Row.withdrawn).sum)
      ∧ ((airtime_box df).table.map AggRow.sum).sum
          = ((df.filter (fun r =>
              substrB ("Airtime".toList) r.type_class)).map Row.withdrawn).sum
      ∧ ((airtime_box df).table.map AggRow.count).sum = (airtime_box df).count)
    ∧ ((ctChargeRows df).isEmpty = false →
        customer_transfer_box df = some (ctResultOf df)
        ∧ (ctResultOf df).totalspend
            = ratTrunc (((ctPrincipalRows df).map Row.withdrawn).sum)
        ∧ ((ctResultOf df).table.map AggRow.sum).sum
            = ((ctPrincipalRows df).map Row.withdrawn).sum
        ∧ (ctResultOf df).count = (ctPrincipalRows df).length
        ∧ ((ctResultOf df).table.map AggRow.count).sum
            = (ctPrincipalRows df).length) := by
  refine ⟨⟨?_, ?_, ?_, ?_⟩, ⟨?_, ?_, ?_, ?_⟩, ⟨?_, ?_, ?_, ?_⟩, ⟨?_, ?_, ?_⟩,
    ⟨?_, ?_, ?_⟩, fun h => ⟨ct_box_some df h, ?_, ?_, ?_, ?_⟩⟩
  · exact merchantFrame_sum df
  · exact merchantFrame_sum df
  · exact merchantFrame_count df
  · exact merchantFrame_count df
  · exact congrArg ratTrunc (paybillFrame_sum df)
  · exact paybillFrame_sum df
  · exact paybillFrame_count df
  · exact paybillFrame_count df
  · exact congrArg ratTrunc ((receiveFrame_sum df).trans (receiveFrameRows_sum df))
  · exact (receiveFrame_sum df).trans (receiveFrameRows_sum df)
  · exact (receiveFrame_count df).trans (receiveFrameRows_length df)
  · exact (receiveFrame_count df).trans (receiveFrameRows_length df)
  · exact congrArg ratTrunc (withdrawalFrame_sum df)
  · exact withdrawalFrame_sum df
  · rfl
  · exact congrArg ratTrunc (airtimeFrame_sum df)
  · exact airtimeFrame_sum df
  · rfl
  · exact congrArg ratTrunc (transferFrame_sum df)
  · exact transferFrame_sum df
  · exact transferFrame_count df
  · exact transferFrame_count df

/-- C1 witness: the customer-transfer conjunct of the amended theorem
applied to a concrete two-row ledger with a charge row. -/
theorem C1_witness :
    (ctChargeRows exC1ctdf).isEmpty = false
    ∧ customer_transfer_box exC1ctdf = some (ctResultOf exC1ctdf) := by
  refine ⟨by decide, ?_⟩
  exact ((C1_conservation_amended exC1ctdf).2.2.2.2.2 (by decide)).1

/-- C2: the never-raises policy is broken by customer_transfer_box.  On
the empty ledger (and on any ledger with no row whose type_desc equals
the marker of Funds Charge, such as exC2df) customertransfer.py line 91
evaluates iloc 0 1 of an empty frame and raises IndexError, modelled as
none; the other five processors do return all-zero results on the empty
ledger. -/
theorem C2_code_behavior :
    customer_transfer_box ([] : List Row) = none
    ∧ merchant_box []
        = { table := [], totalspend := 0, totalcharges := 0, count := 0 }
    ∧ paybill_box []
        = { table := [], totalsent := 0, totalcharges := 0, count := 0 }
    ∧ receive_money_box [] = { table := [], totalreceived := 0, count := 0 }
    ∧ cash_withdrawal_box []
        = { table := [], totalwithdrawal := 0, totalcharges := 0, count := 0 }
    ∧ airtime_box [] = { table := [], totalairtime := 0, count := 0 }
    ∧ customer_transfer_box exC2df = none := by
  with_unfolding_all decide

/-- C3: masked-name resolution.  For every counterparty string with an
asterisk, the cleanup used by the peer-transfer and received-funds
processors drops everything up to and including the first space and
title-cases the rest; with no space at all the result is empty; the
spec example resolves as stated, and both processors carry the resolved
name into their aggregate tables. -/
theorem C3_masked_resolution :
    (∀ s pre post : List Char, hasAst s = true → s = pre ++ ' ' :: post →
        ' ' ∉ pre → cleanMasked s = pyTitle post)
    ∧ (∀ s : List Char, hasAst s = true → ' ' ∉ s → cleanMasked s = [])
    ∧ cleanMasked ("2547*****23 John Doe".toList) = "John Doe".toList
    ∧ (customer_transfer_box exC3ctdf).map (fun res => res.table.map AggRow.entity)
        = some ["John Doe".toList]
    ∧ (receive_money_box exC3rmdf).table.map ReceiveRow.entity
        = ["John Doe".toList] := by
  refine ⟨?_, ?_, ?_, ?_, ?_⟩
  · intro s pre post hast heq hnsp
    unfold cleanMasked
    rw [if_pos hast, heq, partAfterSpace_append pre post hnsp]
  · intro s hast hnsp
    unfold cleanMasked
    rw [if_pos hast, partAfterSpace_no_space s hnsp]
    rfl
  · with_unfolding_all decide
  · with_unfolding_all decide
  · with_unfolding_all decide

/-- C3 witness: the two universally-quantified parts of the resolution
theorem applied at concrete masked strings. -/
theorem C3_witness :
    (hasAst ("2547*****23 John Doe".toList) = true
      ∧ ("2547*****23 John Doe".toList
          = "2547*****23".toList ++ ' ' :: "John Doe".toList)
      ∧ ' ' ∉ "2547*****23".toList
      ∧ cleanMasked ("2547*****23 John Doe".toList) = pyTitle ("John Doe".toList))
    ∧ (hasAst ("254*7".toList) = true ∧ ' ' ∉ "254*7".toList
      ∧ cleanMasked ("254*7".toList) = []) := by
  refine ⟨⟨by decide, by decide, by decide, ?_⟩, ⟨by decide, by decide, ?_⟩⟩
  · exact C3_masked_resolution.1 ("2547*****23 John Doe".toList)
      ("2547*****23".toList) ("John Doe".toList) (by decide) (by decide)
      (by decide)
  · exact C3_masked_resolution.2.1 ("254*7".toList) (by decide) (by decide)

/-- C4 counterexample: a non-masked counterparty string is not
title-cased by the peer-transfer processor; the raw upper-case entity
appears verbatim in the aggregate, not its title-cased form. -/
theorem C4_counterexample :
    (customer_transfer_box exC4df).map (fun res => res.table.map AggRow.entity)
      = some ["SAFARICOM DATA BUNDLES".toList]
    ∧ pyTitle ("SAFARICOM DATA BUNDLES".toList)
        = "Safaricom Data Bundles".toList
    ∧ "SAFARICOM DATA BUNDLES".toList ≠ "Safaricom Data Bundles".toList := by
  with_unfolding_all decide

/-- C4 amended: a counterparty string without an asterisk passes through
the name cleanup unchanged (the title-casing of non-masked rows sits in
an exception fallback the vectorised code never reaches), and every
entity of the peer-transfer aggregate is the cleanup image of the raw
entity of some matching non-charge ledger row — hence equal to that raw
string whenever it has no asterisk. -/
theorem C4_amended :
    (∀ e : List Char, hasAst e = false → cleanMasked e = e)
    ∧ (∀ df : List Row, ∀ a ∈ transferFrame df,
        ∃ r, r ∈ df ∧ ctPred r = true
          ∧ decide (r.type_desc = ctChargeDesc) = false
          ∧ a.entity = cleanMasked r.entity
          ∧ (hasAst r.entity = false → a.entity = r.entity)) := by
  constructor
  · intro e he
    unfold cleanMasked
    rw [if_neg (by simp [he])]
  · intro df a ha
    have ha2 : a ∈ aggByEntity Row.withdrawn
        ((ctPrincipalRows df).map (fun r => { r with entity := cleanMasked r.entity })) :=
      (isortBy_perm (leDescBy AggRow.sum) _).mem_iff.mp ha
    rcases mem_aggByEntity _ _ a ha2 with ⟨rc, hrc, hent⟩
    rcases List.mem_map.mp hrc with ⟨r, hr, hre⟩
    rcases List.mem_filter.mp hr with ⟨hrct, hdesc⟩
    rcases List.mem_filter.mp hrct with ⟨hrdf, hpred⟩
    refine ⟨r, hrdf, hpred, by simpa using hdesc, ?_, ?_⟩
    · rw [hent, ← hre]
    · intro hne
      rw [hent, ← hre]
      show cleanMasked r.entity = r.entity
      unfold cleanMasked
      rw [if_neg (by simp [hne])]

/-- C4 witness: the provenance part of the amended theorem applied to
the concrete non-masked ledger of the counterexample. -/
theorem C4_witness :
    (⟨"SAFARICOM DATA BUNDLES".toList, 1, 100⟩ : AggRow) ∈ transferFrame exC4df
    ∧ ∃ r, r ∈ exC4df ∧ ctPred r = true
        ∧ decide (r.type_desc = ctChargeDesc) = false
        ∧ (⟨"SAFARICOM DATA BUNDLES".toList, 1, 100⟩ : AggRow).entity
            = cleanMasked r.entity
        ∧ (hasAst r.entity = false →
            (⟨"SAFARICOM DATA BUNDLES".toList, 1, 100⟩ : AggRow).entity
              = r.entity) := by
  refine ⟨by with_unfolding_all decide, ?_⟩
  exact C4_amended.2 exC4df _ (by with_unfolding_all decide)

/-- C5 counterexample: a pay-bill entity without the account separator
is split into a business name and a missing (NaN) account, not an empty
string; when account references are comma-joined the missing value
renders as nan, so the accounts attribute for the spec example is
123 comma nan rather than 123 comma empty. -/
theorem C5_counterexample :
    (paybill_box exC5df).table
      = [{ entity2 := "KPLC PREPAID".toList, count := 2, sum := 12,
           accounts := "123, nan".toList }]
    ∧ (splitAcct ("KPLC PREPAID".toList)).2 = none
    ∧ optAcctStr none = "nan".toList
    ∧ "nan".toList ≠ ([] : List Char)
    ∧ "123, nan".toList ≠ "123, ".toList := by
  with_unfolding_all decide

/-- C5 amended: the split itself behaves as claimed — text before the
first separator is the business name, text after it the account — but a
missing account segment yields a missing value (pandas NaN, rendered nan
in the comma-joined accounts attribute), not the empty string; grouping
is by business name only, with account references joined in row order. -/
theorem C5_amended :
    splitAcct ("KPLC PREPAID Acc. 123456".toList)
      = ("KPLC PREPAID".toList, some ("123456".toList))
    ∧ splitAcct ("KPLC PREPAID".toList) = ("KPLC PREPAID".toList, none)
    ∧ (∀ s : List Char, (∀ k, k ≤ s.length → matchSep (s.drop k) = none) →
        splitAcct s = (s, none))
    ∧ (∀ b a : List Char,
        (∀ k, k < b.length →
          matchSep ((b ++ " Acc. ".toList ++ a).drop k) = none) →
        (∀ c, a.head? = some c → asciiWs c = false) →
        splitAcct (b ++ " Acc. ".toList ++ a) = (b, some a))
    ∧ (paybill_box exC5df).table
        = [{ entity2 := "KPLC PREPAID".toList, count := 2, sum := 12,
             accounts := "123, nan".toList }] := by
  refine ⟨by with_unfolding_all decide, by with_unfolding_all decide,
    ?_, ?_, by with_unfolding_all decide⟩
  · exact fun s h => splitAcct_none s h
  · intro b a hb ha
    have he : b ++ " Acc. ".toList ++ a
        = b ++ ' ' :: 'A' :: 'c' :: 'c' :: '.' :: ' ' :: a := by
      rw [List.append_assoc]
      rfl
    rw [he] at hb ⊢
    exact splitAcct_sep b a hb ha

/-- C5 witness: the two universally-quantified split laws applied at the
spec's two concrete pay-bill strings. -/
theorem C5_witness :
    ((∀ k, k ≤ ("KPLC PREPAID".toList).length →
        matchSep (("KPLC PREPAID".toList).drop k) = none)
      ∧ splitAcct ("KPLC PREPAID".toList) = ("KPLC PREPAID".toList, none))
    ∧ ((∀ k, k < ("KPLC PREPAID".toList).length →
        matchSep ((("KPLC PREPAID".toList) ++ " Acc. ".toList
          ++ "123456".toList).drop k) = none)
      ∧ (∀ c, ("123456".toList).head? = some c → asciiWs c = false)
      ∧ splitAcct (("KPLC PREPAID".toList) ++ " Acc. ".toList
          ++ "123456".toList)
          = ("KPLC PREPAID".toList, some ("123456".toList))) := by
  refine ⟨⟨by decide, ?_⟩, ⟨by decide, by decide, ?_⟩⟩
  · exact C5_amended.2.2.1 ("KPLC PREPAID".toList) (by decide)
  · exact C5_amended.2.2.2.1 ("KPLC PREPAID".toList) ("123456".toList)
      (by decide) (by decide)

/-- C6 counterexample: the pay-bill charge total is not the largest
per-entity charge sum.  With charge entities A totalling 5 and B
totalling 10, paybill.py line 40 reports iloc 0 1 of the entity-sorted
charge aggregate, i.e. 5 — the lexicographically first entity — while
the largest per-entity total is 10. -/
theorem C6_counterexample :
    (paybill_box exC6df).totalcharges = 5
    ∧ (((paybillChargeRows exC6df).filter
        (fun r => decide (r.entity = "B".toList))).map Row.withdrawn).sum = 10
    ∧ (5 : ℚ) < 10 := by
  with_unfolding_all decide

/-- C6 amended: with no charge row the charge total is zero; otherwise
it is the (2-decimal-rounded) withdrawn sum of the lexicographically
first charge entity — not of the entity with the largest total.  The two
agree when there is a single fee-collecting entity. -/
theorem C6_amended (df : List Row) :
    ((paybillChargeRows df).isEmpty = true →
      (paybill_box df).totalcharges = 0)
    ∧ ((paybillChargeRows df).isEmpty = false →
        ∃ e : List Char,
          (∃ r, r ∈ paybillChargeRows df ∧ r.entity = e)
          ∧ (∀ r, r ∈ paybillChargeRows df → strLtB r.entity e = false)
          ∧ (paybill_box df).totalcharges
              = pyRound ((((paybillChargeRows df).filter
                  (fun r => decide (r.entity = e))).map Row.withdrawn).sum) 2) := by
  constructor
  · intro h
    have hnil : paybillChargeRows df = [] := by
      cases hv : paybillChargeRows df with
      | nil => rfl
      | cons a l =>
        rw [hv] at h
        simp [List.isEmpty] at h
    show pyRound (paybillChargesHead df) 2 = 0
    rw [show paybillChargesHead df = 0 from by
      unfold paybillChargesHead
      rw [hnil]
      rfl]
    exact pyRound_zero 2
  · intro h
    have hne : paybillChargeRows df ≠ [] := by
      intro hc
      rw [hc] at h
      simp [List.isEmpty] at h
    have hkne : groupKeysStr ((paybillChargeRows df).map Row.entity) ≠ [] := by
      apply groupKeysStr_ne_nil
      intro hc
      exact hne (List.map_eq_nil_iff.mp hc)
    obtain ⟨k, rest, hk⟩ : ∃ k rest,
        groupKeysStr ((paybillChargeRows df).map Row.entity) = k :: rest := by
      cases hv : groupKeysStr ((paybillChargeRows df).map Row.entity) with
      | nil => exact absurd hv hkne
      | cons k rest => exact ⟨k, rest, rfl⟩
    refine ⟨k, ?_, ?_, ?_⟩
    · have hmem : k ∈ (paybillChargeRows df).map Row.entity :=
        (mem_groupKeysStr _ _).mp (by rw [hk]; simp)
      rcases List.mem_map.mp hmem with ⟨r, hr, hre⟩
      exact ⟨r, hr, hre⟩
    · intro r hr
      exact groupKeysStr_head_min _ k rest hk r.entity
        (List.mem_map_of_mem _ hr)
    · show pyRound (paybillChargesHead df) 2 = _
      unfold paybillChargesHead
      rw [hk]

/-- C6 witness: the non-empty branch of the amended theorem at the
two-entity charge ledger of the counterexample. -/
theorem C6_witness :
    (paybillChargeRows exC6df).isEmpty = false
    ∧ ∃ e : List Char,
        (∃ r, r ∈ paybillChargeRows exC6df ∧ r.entity = e)
        ∧ (∀ r, r ∈ paybillChargeRows exC6df → strLtB r.entity e = false)
        ∧ (paybill_box exC6df).totalcharges
            = pyRound ((((paybillChargeRows exC6df).filter
                (fun r => decide (r.entity = e))).map Row.withdrawn).sum) 2 := by
  exact ⟨by decide, (C6_amended exC6df).2 (by decide)⟩

/-- C7: received-funds tagging and two-key grouping.  The concatenated
frame consists of exactly the matching rows, each with its entity left
as-is on the business branch and mask-cleaned on the individual branch,
and re-tagged Individual exactly when its original subtype description
ends in the word from, Business otherwise; grouping is by the pair of
entity and tag, so one display name can occupy two rows; and the spec's
two-row scenario yields exactly the two claimed aggregate rows. -/
theorem C7_receive_tagging :
    (∀ (df : List Row) (x : Row),
        x ∈ receiveFrameRows df ↔
          ∃ r, r ∈ df ∧ rmPred r = true
            ∧ x = { (if rmBusP r = true then r
                     else { r with entity := cleanMasked r.entity }) with
                    type_desc := retagDesc r.type_desc })
    ∧ (∀ d : List Char,
        retagDesc d = "Individual".toList ↔ ("from".toList).isSuffixOf d = true)
    ∧ (receive_money_box exC7df).table
        = [⟨"ABC Ltd".toList, "Business".toList, 1, 2000⟩,
           ⟨"Jane Roe".toList, "Individual".toList, 1, 1000⟩]
    ∧ List.Perm (receive_money_box exC7df).table
        [⟨"Jane Roe".toList, "Individual".toList, 1, 1000⟩,
         ⟨"ABC Ltd".toList, "Business".toList, 1, 2000⟩]
    ∧ (receive_money_box exC7bdf).table
        = [⟨"ABC".toList, "Business".toList, 1, 7⟩,
           ⟨"ABC".toList, "Individual".toList, 1, 5⟩] := by
  refine ⟨receiveFrameRows_mem, ?_, ?_, ?_, ?_⟩
  · intro d
    unfold retagDesc
    by_cases h : ("from".toList).isSuffixOf d = true
    · rw [if_pos h]
      exact iff_of_true rfl h
    · rw [if_neg h]
      constructor
      · intro he
        exact absurd he (by decide)
      · intro hs
        exact absurd hs h
  · with_unfolding_all decide
  · have ht : (receive_money_box exC7df).table
        = [⟨"ABC Ltd".toList, "Business".toList, 1, 2000⟩,
           ⟨"Jane Roe".toList, "Individual".toList, 1, 1000⟩] := by
      with_unfolding_all decide
    rw [ht]
    exact List.Perm.swap _ _ _
  · with_unfolding_all decide

/-- C8 counterexample: ties are not broken by first-seen order.  On a
merchant ledger whose rows are entity B then entity A, both with total
100, the returned table lists A before B (the groupby pre-sorts keys
alphabetically), while first-seen order is B before A. -/
theorem C8_counterexample :
    (merchant_box exC8df).table
      = [⟨"A".toList, 1, 100⟩, ⟨"B".toList, 1, 100⟩]
    ∧ (merchantRows exC8df).map Row.entity = ["B".toList, "A".toList]
    ∧ ([⟨"A".toList, 1, 100⟩, ⟨"B".toList, 1, 100⟩] : List AggRow)
        ≠ [⟨"B".toList, 1, 100⟩, ⟨"A".toList, 1, 100⟩] := by
  with_unfolding_all decide

/-- C8 amended: the merchant and peer-transfer aggregate tables are
sorted descending by total amount, and two entities with equal totals
appear in ascending lexicographic order of entity name (the order the
groupby emits its keys in), not in first-seen ledger order. -/
theorem C8_amended (df : List Row) :
    (merchant_box df).table.Pairwise
      (fun a b => b.sum < a.sum
        ∨ (b.sum = a.sum ∧ strLtB a.entity b.entity = true))
    ∧ (∀ res, customer_transfer_box df = some res →
        res.table.Pairwise
          (fun a b => b.sum < a.sum
            ∨ (b.sum = a.sum ∧ strLtB a.entity b.entity = true))) := by
  constructor
  · exact sortedTable_tie Row.withdrawn (merchantRows df)
  · intro res h
    rw [ct_box_some_inv df res h]
    exact sortedTable_tie Row.withdrawn _

/-- C8 witness: the peer-transfer conjunct of the amended ordering
theorem at a concrete three-row ledger. -/
theorem C8_witness :
    customer_transfer_box exC8ctdf = some (ctResultOf exC8ctdf)
    ∧ (ctResultOf exC8ctdf).table.Pairwise
        (fun a b => b.sum < a.sum
          ∨ (b.sum = a.sum ∧ strLtB a.entity b.entity = true)) := by
  refine ⟨by with_unfolding_all decide, ?_⟩
  exact (C8_amended exC8ctdf).2 (ctResultOf exC8ctdf)
    (by with_unfolding_all decide)

/-- C9: the airtime pipeline — aggregate, sort ascending by total,
select the n largest, re-sort descending for display — selects exactly
the same rows in exactly the same order as ordinary top-N-by-total on
the unsorted aggregates, which in turn is just the first n rows of the
descending-sorted aggregate table. -/
theorem C9_airtime_topn (df : List Row) (n : Nat) :
    airtimeDisplaySelection df n = topNByTotal (airtimeAggBase df) n
    ∧ airtimeDisplaySelection df n
        = (sortDescQ AggRow.sum (airtimeAggBase df)).take n := by
  have h1 : airtimeDisplaySelection df n
      = sortDescQ AggRow.sum ((sortDescQ AggRow.sum (airtimeAggBase df)).take n) := by
    unfold airtimeDisplaySelection airtimeFrame
    rw [sortDescQ_sortAscQ]
  have h2 : sortDescQ AggRow.sum ((sortDescQ AggRow.sum (airtimeAggBase df)).take n)
      = (sortDescQ AggRow.sum (airtimeAggBase df)).take n :=
    sortDescQ_of_sorted _ _
      ((pairwise_sortDescQ AggRow.sum _).sublist (List.take_sublist n _))
  exact ⟨h1, h1.trans h2⟩

/-- C10: the category totals of paybill_box, customer_transfer_box,
receive_money_box and airtime_box are the toward-zero integer truncation
of the exact sum of the matching amounts, while the aggregate tables
retain the exact per-entity sums (their column total equals the exact
matching-row sum). -/
theorem C10_truncation (df : List Row) :
    ((paybill_box df).totalsent
        = ratTrunc (((paybillRows df).map Row.withdrawn).sum)
      ∧ ((paybill_box df).table.map PaybillRow.sum).sum
          = ((paybillRows df).map Row.withdrawn).sum)
    ∧ ((receive_money_box df).totalreceived
        = ratTrunc (((df.filter (fun r => rmPred r)).map Row.paid_in).sum)
      ∧ ((receive_money_box df).table.map ReceiveRow.sum).sum
          = ((df.filter (fun r => rmPred r)).map Row.paid_in).sum)
    ∧ ((airtime_box df).totalairtime
        = ratTrunc (((df.filter (fun r =>
            substrB ("Airtime".toList) r.type_class)).map Row.withdrawn).sum)
      ∧ ((airtime_box df).table.map AggRow.sum).sum
          = ((df.filter (fun r =>
              substrB ("Airtime".toList) r.type_class)).map Row.withdrawn).sum)
    ∧ (∀ res, customer_transfer_box df = some res →
        res.totalspend = ratTrunc (((ctPrincipalRows df).map Row.withdrawn).sum)
        ∧ (res.table.map AggRow.sum).sum
            = ((ctPrincipalRows df).map Row.withdrawn).sum) := by
  refine ⟨⟨?_, ?_⟩, ⟨?_, ?_⟩, ⟨?_, ?_⟩, ?_⟩
  · exact congrArg ratTrunc (paybillFrame_sum df)
  · exact paybillFrame_sum df
  · exact congrArg ratTrunc ((receiveFrame_sum df).trans (receiveFrameRows_sum df))
  · exact (receiveFrame_sum df).trans (receiveFrameRows_sum df)
  · exact congrArg ratTrunc (airtimeFrame_sum df)
  · exact airtimeFrame_sum df
  · intro res h
    rw [ct_box_some_inv df res h]
    exact ⟨congrArg ratTrunc (transferFrame_sum df), transferFrame_sum df⟩

/-- C10 witness: the customer-transfer conjunct applied to a concrete
ledger whose principal amount is seven halves, whose reported total is
the truncation three. -/
theorem C10_witness :
    customer_transfer_box exC10ctdf = some (ctResultOf exC10ctdf)
    ∧ ((ctResultOf exC10ctdf).totalspend
        = ratTrunc (((ctPrincipalRows exC10ctdf).map Row.withdrawn).sum)
      ∧ ((ctResultOf exC10ctdf).table.map AggRow.sum).sum
          = ((ctPrincipalRows exC10ctdf).map Row.withdrawn).sum) := by
  refine ⟨by with_unfolding_all decide, ?_⟩
  exact (C10_truncation exC10ctdf).2.2.2 (ctResultOf exC10ctdf)
    (by with_unfolding_all decide)
